import Mathlib

/-!
Verification of the quantitative-analysis engine of the stock-analysis
repository: feature engineering (`build_model.py`, `api.py`), the
training-table construction (`prepare_data`), the ratio normalizer and
undervalued scanner (`analysis_layer.py`), the sentiment aggregation
(`api.py` / `huggingface_app.py`) and the prediction endpoint (`api.py`).

Numeric model: finite pandas/NumPy floats are idealized as rationals; the
IEEE special values that the source (pandas) produces and branches on are
modeled explicitly by the type `PF` below, with the IEEE rules for the
operations the source uses: x/0 is +inf or -inf for x nonzero, 0/0 is NaN,
NaN propagates through arithmetic, comparisons with NaN are false, and
`fillna(0)` replaces NaN (and only NaN) by 0.
-/

/-- Model of a pandas float cell: a finite rational, +inf, -inf, or NaN. -/
inductive PF where
  | nan : PF
  | pinf : PF
  | ninf : PF
  | num : ℚ → PF
deriving DecidableEq

/-- IEEE addition on `PF` (cases the source can reach). -/
def PF.addP : PF → PF → PF
  | .nan, _ => .nan
  | _, .nan => .nan
  | .pinf, .ninf => .nan
  | .ninf, .pinf => .nan
  | .pinf, _ => .pinf
  | _, .pinf => .pinf
  | .ninf, _ => .ninf
  | _, .ninf => .ninf
  | .num a, .num b => .num (a + b)

/-- IEEE subtraction on `PF`. -/
def PF.subP : PF → PF → PF
  | .nan, _ => .nan
  | _, .nan => .nan
  | .pinf, .pinf => .nan
  | .ninf, .ninf => .nan
  | .pinf, _ => .pinf
  | .ninf, _ => .ninf
  | _, .pinf => .ninf
  | _, .ninf => .pinf
  | .num a, .num b => .num (a - b)

/-- IEEE division on `PF`: division of a nonzero finite value by zero gives a
signed infinity, 0/0 gives NaN, finite/inf gives 0 (signed zeros conflated). -/
def PF.divP : PF → PF → PF
  | .nan, _ => .nan
  | _, .nan => .nan
  | .pinf, .pinf => .nan
  | .pinf, .ninf => .nan
  | .ninf, .pinf => .nan
  | .ninf, .ninf => .nan
  | .pinf, .num b => if 0 ≤ b then .pinf else .ninf
  | .ninf, .num b => if 0 ≤ b then .ninf else .pinf
  | .num _, .pinf => .num 0
  | .num _, .ninf => .num 0
  | .num a, .num b =>
      if b = 0 then (if a = 0 then .nan else if 0 < a then .pinf else .ninf)
      else .num (a / b)

/-- Is this cell NaN?  (`dropna` drops exactly the rows containing NaN;
infinities are kept.) -/
def PF.isNan : PF → Bool
  | .nan => true
  | _ => false

/-- Model of `fillna(0)`: replace NaN by 0, leave every other value (including the
infinities) unchanged. -/
def fillna0 : PF → PF
  | .nan => .num 0
  | x => x

/-- Trailing-window sum: the sum of `c (t - i)` for `i = 0, ..., w-1`.
`rolling(w).mean()` of the source is `wsum c w t / w` (defined when the
window is full, i.e. `w - 1 ≤ t`). -/
def wsum (c : ℕ → ℚ) (w t : ℕ) : ℚ :=
  (((List.range w).map (fun i => c (t - i))).sum)

/-- Model of `df['Close'].pct_change()` at row `t`: `(c t - c (t-1)) / c (t-1)`,
NaN at the first row.  Source: `build_model.py` line 32, `api.py` line 57. -/
def returnsPF (c : ℕ → ℚ) (t : ℕ) : PF :=
  if t = 0 then .nan else PF.divP (.num (c t - c (t - 1))) (.num (c (t - 1)))

/-- Model of `df['Close'].rolling(window=w).mean()` at row `t`: NaN until the window
fills, then the trailing mean.  Source: `build_model.py` lines 33-34. -/
def smaPF (c : ℕ → ℚ) (w t : ℕ) : PF :=
  if t + 1 < w then .nan else .num (wsum c w t / w)

/-- Model of `(df['Close'] - df['SMA_w']) / df['SMA_w']` at row `t`.
Source: `build_model.py` lines 37-38, `api.py` lines 60-61. -/
def distSmaPF (c : ℕ → ℚ) (w t : ℕ) : PF :=
  PF.divP (PF.subP (.num (c t)) (smaPF c w t)) (smaPF c w t)

/-- Model of `delta.where(delta > 0, 0)` at row `t`, where `delta = Close.diff()`:
the positive daily delta, else 0.  The first row's delta is NaN and
`NaN > 0` is false, so `where` replaces it by 0. -/
def gainF (c : ℕ → ℚ) (t : ℕ) : ℚ :=
  if t = 0 then 0 else (if 0 < c t - c (t - 1) then c t - c (t - 1) else 0)

/-- Model of `(-delta.where(delta < 0, 0))` at row `t`: the negated negative daily
delta, else 0; the first row's NaN delta is replaced by 0 as well. -/
def lossF (c : ℕ → ℚ) (t : ℕ) : ℚ :=
  if t = 0 then 0 else (if c t - c (t - 1) < 0 then -(c t - c (t - 1)) else 0)

/-- Average gain over the trailing 14-bar window (a plain rational:
the gain series contains no NaN). -/
def gAvg (c : ℕ → ℚ) (t : ℕ) : ℚ := wsum (gainF c) 14 t / 14

/-- Average loss over the trailing 14-bar window. -/
def lAvg (c : ℕ → ℚ) (t : ℕ) : ℚ := wsum (lossF c) 14 t / 14

/-- Model of `gain.rolling(window=14).mean()` as a pandas cell: NaN until the
14-observation window fills (first defined at row 13). -/
def gAvgPF (c : ℕ → ℚ) (t : ℕ) : PF :=
  if t < 13 then .nan else .num (gAvg c t)

/-- Model of `loss.rolling(window=14).mean()` as a pandas cell. -/
def lAvgPF (c : ℕ → ℚ) (t : ℕ) : PF :=
  if t < 13 then .nan else .num (lAvg c t)

/-- RSI(14) at row `t` exactly as the source computes it
(`build_model.py` `calculate_rsi`, lines 14-19, and identically
`api.py` lines 63-68): `rs = gain_avg / loss_avg` and
`rsi = 100 - 100 / (1 + rs)`, with IEEE semantics when `loss_avg = 0`. -/
def rsiPF (c : ℕ → ℚ) (t : ℕ) : PF :=
  PF.subP (.num 100)
    (PF.divP (.num 100) (PF.addP (.num 1) (PF.divP (gAvgPF c t) (lAvgPF c t))))

/-- Model of `df['Volume'].pct_change()` at row `t`. -/
def volChPF (v : ℕ → ℚ) (t : ℕ) : PF :=
  if t = 0 then .nan else PF.divP (.num (v t - v (t - 1))) (.num (v (t - 1)))

/-- The feature row `[Returns, Dist_SMA_20, Dist_SMA_50, RSI, Vol_Change]`
at bar `t`, shared verbatim by training (`build_model.py` lines 32-48) and
inference (`api.py` `calculate_features`, lines 54-72). -/
def featuresRow (c v : ℕ → ℚ) (t : ℕ) : List PF :=
  [returnsPF c t, distSmaPF c 20 t, distSmaPF c 50 t, rsiPF c t, volChPF v t]

/-- One row of the training table produced by `prepare_data`:
the bar index, its five feature values, and its `Target` label. -/
structure TrainRow where
  idx : ℕ
  feats : List PF
  label : ℕ
deriving DecidableEq

/-- Model of `df['Target'] = (df['Close'].shift(-1) > df['Close']).astype(int)`
(`build_model.py` line 43).  At the final bar `shift(-1)` is NaN and the
pandas comparison `NaN > x` is `False`, so the final bar gets label 0
(it is NOT NaN, hence not dropped by `dropna`). -/
def targetOf (n : ℕ) (c : ℕ → ℚ) (t : ℕ) : ℕ :=
  if t + 1 < n ∧ c t < c (t + 1) then 1 else 0

/-- Model of `dropna` keeps row `t` iff none of its five feature cells is NaN
(the raw OHLCV columns are never null by the Bar invariant, and `Target`
is an integer column). -/
def rowOk (c v : ℕ → ℚ) (t : ℕ) : Bool :=
  (featuresRow c v t).all (fun x => !x.isNan)

/-- The feature/label table of `prepare_data` (`build_model.py` lines
31-52) for a bar series of length `n` with closes `c` and volumes `v`:
engineer the five features on every row, attach `Target`, and drop the
rows containing NaN. -/
def prepareTable (n : ℕ) (c v : ℕ → ℚ) : List TrainRow :=
  ((List.range n).filter (fun t => rowOk c v t)).map
    (fun t => ⟨t, featuresRow c v t, targetOf n c t⟩)

/-- Model of `prepare_data` (`build_model.py` lines 21-52): raises
`ValueError("No data fetched.")` when the fetched frame is empty,
otherwise returns the feature/label table. -/
def prepareData (n : ℕ) (c v : ℕ → ℚ) : Except String (List TrainRow) :=
  if n = 0 then .error "No data fetched." else .ok (prepareTable n c v)

/-- The three artifact files `build_model` writes on success
(`build_model.py` lines 87, 88, 98). -/
def artifactFiles : List String :=
  ["adaboost_model.joblib", "scaler.joblib", "model_metadata.json"]

/-- Model of `build_model` (`build_model.py` lines 54-104): run `prepare_data`
inside a `try`; any raised error is caught before any artifact is
written, so the outcome is either an error with no files written, or
success with all three of model, scaler and metadata written.  All three
dumps sit at the end of the `try` block after training; the artifact
store's own IO is assumed non-failing (spec section 6).  The result is
the training outcome together with the list of files written. -/
def buildModel (n : ℕ) (c v : ℕ → ℚ) : Except String Unit × List String :=
  match prepareData n c v with
  | .error e => (.error e, [])
  | .ok _ => (.ok (), artifactFiles)

/-- A raw fundamental field mapping: provider keys to numeric-or-null
values (`None` in the source is `none` here; a key can also be absent
altogether).  Spec section 4.4: "keys may be absent or null". -/
abbrev RawMap : Type := List (String × Option ℚ)

/-- Model of `info.get(key)`: `none` when the key is absent, `some none` when the
key is present with a null value, `some (some x)` for a number. -/
def rawLookup (raw : RawMap) (k : String) : Option (Option ℚ) :=
  (List.find? (fun p => p.1 == k) raw).map (fun p => p.2)

/-- Model of `get_val` of `calculate_ratios` (`analysis_layer.py` lines 23-24):
`float(info.get(key, 0) or 0.0)` - absent, null and zero all give 0.0. -/
def getVal (raw : RawMap) (k : String) : ℚ :=
  match rawLookup raw k with
  | none => 0
  | some none => 0
  | some (some x) => x

/-- The ratio record built by `calculate_ratios` / `_empty_ratios`
(`analysis_layer.py`).  Field spellings follow the source attribute names
(`pe` / `pb` / `current_r` / `quick_r` / `cash_r` stand for the source's
pe-ratio, pb-ratio, current-, quick- and cash-ratio attributes). -/
structure Ratios where
  roe : ℚ
  roa : ℚ
  net_profit_margin : ℚ
  gross_profit_margin : ℚ
  current_r : ℚ
  quick_r : ℚ
  cash_r : ℚ
  debt_to_equity : ℚ
  debt_to_assets : ℚ
  equity_multiplier : ℚ
  asset_turnover : ℚ
  inventory_turnover : ℚ
  receivables_turnover : ℚ
  pe : ℚ
  pb : ℚ
  market_cap : ℚ
deriving DecidableEq

/-- The `Ratios(...)` constructor call of `calculate_ratios`
(`analysis_layer.py` lines 33-59), field by field:
percentages are provider fractions times 100; the provider's
percent-form debt-to-equity is divided by 100 only when non-zero; the
ratios not derivable from the simple info payload are constant 0.0. -/
def mkRatios (info : RawMap) : Ratios where
  roe := getVal info "returnOnEquity" * 100
  roa := getVal info "returnOnAssets" * 100
  net_profit_margin := getVal info "profitMargins" * 100
  gross_profit_margin := getVal info "grossMargins" * 100
  current_r := getVal info "currentRatio"
  quick_r := getVal info "quickRatio"
  cash_r := 0
  debt_to_equity :=
    if getVal info "debtToEquity" ≠ 0 then getVal info "debtToEquity" / 100 else 0
  debt_to_assets := 0
  equity_multiplier := 0
  asset_turnover := 0
  inventory_turnover := 0
  receivables_turnover := 0
  pe := getVal info "trailingPE"
  pb := getVal info "priceToBook"
  market_cap := getVal info "marketCap"

/-- Model of `_empty_ratios` (`analysis_layer.py` lines 61-69): every field 0.0. -/
def emptyRatios : Ratios where
  roe := 0
  roa := 0
  net_profit_margin := 0
  gross_profit_margin := 0
  current_r := 0
  quick_r := 0
  cash_r := 0
  debt_to_equity := 0
  debt_to_assets := 0
  equity_multiplier := 0
  asset_turnover := 0
  inventory_turnover := 0
  receivables_turnover := 0
  pe := 0
  pb := 0
  market_cap := 0

/-- Model of `calculate_ratios` entry (`analysis_layer.py` lines 11-19): when the
financials payload is missing (`none`) or its info mapping is empty
(falsy in Python), return `_empty_ratios`; otherwise normalize. -/
def calculateRatios (data : Option RawMap) : Ratios :=
  match data with
  | none => emptyRatios
  | some info => if info.isEmpty then emptyRatios else mkRatios info

/-- The named ratio keys of the record, exactly the key list of
`_empty_ratios` (`analysis_layer.py` lines 65-67). -/
def ratioKeys : List String :=
  ["roe", "roa", "net_profit_margin", "gross_profit_margin", "current_ratio",
   "quick_ratio", "cash_ratio", "debt_to_equity", "debt_to_assets",
   "equity_multiplier", "asset_turnover", "inventory_turnover",
   "receivables_turnover", "pe_ratio", "pb_ratio", "market_cap"]

/-- The field values of a `Ratios` record, in the order of `ratioKeys`. -/
def ratiosToList (r : Ratios) : List ℚ :=
  [r.roe, r.roa, r.net_profit_margin, r.gross_profit_margin, r.current_r,
   r.quick_r, r.cash_r, r.debt_to_equity, r.debt_to_assets,
   r.equity_multiplier, r.asset_turnover, r.inventory_turnover,
   r.receivables_turnover, r.pe, r.pb, r.market_cap]

/-- The per-candidate score of `find_undervalued_stocks`
(`analysis_layer.py` lines 122-126): one point for each of
`0 < pe < 25`, `0 < pb < 5`, `roe > 15`, `debt_to_equity < 1.0`. -/
def scoreOf (r : Ratios) : ℕ :=
  (if 0 < r.pe ∧ r.pe < 25 then 1 else 0) +
  (if 0 < r.pb ∧ r.pb < 5 then 1 else 0) +
  (if 15 < r.roe then 1 else 0) +
  (if r.debt_to_equity < 1 then 1 else 0)

/-- A scan result entry: `{"symbol", "score", "pe_ratio", "roe"}`
(`analysis_layer.py` lines 129-134). -/
structure SRec where
  symbol : String
  score : ℕ
  pe : ℚ
  roe : ℚ
deriving DecidableEq

/-- The scan loop of `find_undervalued_stocks` (lines 120-134): walk the
candidate universe in order, score each candidate's ratio record
(`g` is the per-symbol `calculate_ratios` fetch, an external
collaborator), and append the candidates reaching score >= 3. -/
def scanRecords (g : String → Ratios) : List String → List SRec
  | [] => []
  | s :: ss =>
      if 3 ≤ scoreOf (g s)
      then ⟨s, scoreOf (g s), (g s).pe, (g s).roe⟩ :: scanRecords g ss
      else scanRecords g ss

/-- Insert into a list already sorted by score descending, placing the new
element before the first strictly-smaller score.  Folding the scan list
right-to-left through this insert is a stable descending sort, the
semantics of Python's stable `list.sort(key=score, reverse=True)`
(`analysis_layer.py` line 137). -/
def insertDesc (x : SRec) : List SRec → List SRec
  | [] => [x]
  | y :: ys => if x.score < y.score then y :: insertDesc x ys else x :: y :: ys

/-- Stable sort by score descending (model of `results.sort(key=lambda x:
x['score'], reverse=True)`; Python's sort is stable and `reverse=True`
keeps ties in original order). -/
def sortByScoreDesc : List SRec → List SRec
  | [] => []
  | x :: xs => insertDesc x (sortByScoreDesc xs)

/-- Model of `find_undervalued_stocks` (`analysis_layer.py` lines 99-138) with the
candidate universe and the per-symbol ratio fetch as parameters (the
source hardcodes a 100-ticker list and fetches via `calculate_ratios`;
spec section 9 treats the universe as injectable configuration):
scan, keep score >= 3, stable-sort by score descending, truncate. -/
def findUndervalued (g : String → Ratios) (cs : List String) (limit : ℕ) :
    List SRec :=
  (sortByScoreDesc (scanRecords g cs)).take limit

/-- Spec-side scoring, following the claim's words: the count of satisfied
criteria among the four conditions. -/
def specScore (r : Ratios) : ℕ :=
  (([decide (0 < r.pe ∧ r.pe < 25), decide (0 < r.pb ∧ r.pb < 5),
     decide (15 < r.roe), decide (r.debt_to_equity < 1)]).count true)

/-- Spec-side scanner, following the claim's words: score every candidate,
keep exactly those with score >= 3, order them by score descending with
ties in original scan order (kept scores are 3 or 4, so that order is the
score-4 records in scan order followed by the score-3 records in scan
order), and truncate to the limit. -/
def specFindUndervalued (g : String → Ratios) (cs : List String)
    (limit : ℕ) : List SRec :=
  let kept :=
    (cs.map (fun s => (⟨s, specScore (g s), (g s).pe, (g s).roe⟩ : SRec))).filter
      (fun r => 3 ≤ r.score)
  ((kept.filter (fun r => r.score = 4)) ++ (kept.filter (fun r => r.score = 3))).take
    limit

/-- Per-headline signed contribution (`api.py` line 206,
`huggingface_app.py` line 94): `+score` for a positive label, `-score`
for a negative label, 0 otherwise. -/
def headlineScore (label : String) (s : ℚ) : ℚ :=
  if label = "positive" then s else if label = "negative" then -s else 0

/-- The aggregation loop (`api.py` lines 202-207): accumulate the signed
contributions over the classified headlines, starting from 0. -/
def aggregateScore (rs : List (String × ℚ)) : ℚ :=
  List.foldl (fun acc r => acc + headlineScore r.1 r.2) 0 rs

/-- The overall label (`api.py` line 214): Positive above 0.1, Negative
below -0.1, Neutral otherwise. -/
def overallLabel (s : ℚ) : String :=
  if 1/10 < s then "Positive" else if s < -(1/10) then "Negative" else "Neutral"

/-- The result of the `/predict/{symbol}` endpoint (`api.py` lines
127-137): the baseline prediction, last close, SMA-20 value, and the
custom-model prediction with its confidence. -/
structure PredictOut where
  prediction : String
  currentPrice : ℚ
  sma20 : ℚ
  customPred : String
  customConf : ℚ

/-- Model of `float(df['Close'].rolling(20).mean().iloc[-1]) if len(df) > 20 else
last_close` (`api.py` line 99): the trailing 20-bar SMA of the last bar,
with the last close substituted when the series has at most 20 bars. -/
def sma20last (n : ℕ) (c : ℕ → ℚ) : ℚ :=
  if 20 < n then wsum c 20 (n - 1) / 20 else c (n - 1)

/-- Model of `calculate_features(df)` (`api.py` lines 54-75): the last feature row.
The source wraps the computation in a try/except returning an empty frame
on error; for a well-formed frame no step raises, so the pure model
always returns the row (the empty-frame branch of the caller is kept). -/
def calcFeaturesOpt (n : ℕ) (c v : ℕ → ℚ) : Option (List PF) :=
  some (featuresRow c v (n - 1))

/-- The body of the custom-model block of `predict` (`api.py` lines
113-120): compute the last feature row, skip if empty, `fillna(0)`, apply
the loaded scaler, take the class probabilities.  The scaler transform
`sT` and the ensemble probability `pb` are the loaded artifacts, external
to the core; either may raise, modeled by `Except`.  An `.error` outcome
covers both the empty-features skip and a caught exception - in the source
both leave the sentinel in place. -/
def customStep (n : ℕ) (c v : ℕ → ℚ)
    (sT : List PF → Except Unit (List PF))
    (pb : List PF → Except Unit (ℚ × ℚ)) : Except Unit (ℚ × ℚ) :=
  match calcFeaturesOpt n c v with
  | none => .error ()
  | some feats => do
      let fs ← sT (feats.map fillna0)
      pb fs

/-- Model of `predict` (`api.py` lines 89-137).  An empty series raises
HTTPException 404 (`.error ()`).  Otherwise the baseline is UP iff the
last close strictly exceeds `sma20last`; the custom model runs only when
the artifacts are loaded and the series has strictly more than 60 bars,
and any exception inside the block leaves the sentinel
`("Insufficient Data", 0.0)` in place; `prob[1] > 0.5` classifies UP with
confidence `prob[1]`, else DOWN with confidence `prob[0]`. -/
def predictAPI (n : ℕ) (c v : ℕ → ℚ) (modelLoaded : Bool)
    (sT : List PF → Except Unit (List PF))
    (pb : List PF → Except Unit (ℚ × ℚ)) : Except Unit PredictOut :=
  if n = 0 then .error ()
  else
    let lc := c (n - 1)
    let s20 := sma20last n c
    let basic := if s20 < lc then "UP" else "DOWN"
    let custom :=
      if modelLoaded ∧ 60 < n then
        match customStep n c v sT pb with
        | .ok pp =>
            (if 1/2 < pp.2 then "UP" else "DOWN", if 1/2 < pp.2 then pp.2 else pp.1)
        | .error _ => ("Insufficient Data", 0)
      else ("Insufficient Data", 0)
    .ok ⟨basic, lc, s20, custom.1, custom.2⟩

/-- Example bar closes: strictly increasing, close of bar `t` is `t + 1`. -/
def exC1 : ℕ → ℚ := fun t => (t : ℚ) + 1

/-- Example bar volumes: constant 1. -/
def exV1 : ℕ → ℚ := fun _ => 1

/-- Example closes for the RSI counterexample: close of bar `t` is `t`. -/
def exC3 : ℕ → ℚ := fun t => (t : ℚ)

/-- Example flat closes (every delta 0). -/
def exFlat : ℕ → ℚ := fun _ => 5

/-- Example alternating closes (both gains and losses in every window). -/
def exAlt : ℕ → ℚ := fun t => if t % 2 = 0 then 10 else 11

/-- Example scaler transform that succeeds and returns its input. -/
def exS : List PF → Except Unit (List PF) := fun l => .ok l

/-- Example probability oracle that succeeds with class-1 probability 3/4. -/
def exP : List PF → Except Unit (ℚ × ℚ) := fun _ => .ok (1/4, 3/4)

/-- Example scaler transform that raises. -/
def exSbad : List PF → Except Unit (List PF) := fun _ => .error ()

/-- The spec's example headline batch:
`[{positive,0.9}, {negative,0.9}, {neutral,0.5}]`. -/
def exBatch : List (String × ℚ) :=
  [("positive", 9/10), ("negative", 9/10), ("neutral", 1/2)]

/-- Example universe for witnesses. -/
def exCs : List String := ["AAPL", "MSFT"]

/-- Example ratio fetch where every symbol's data is missing. -/
def exG : String → Ratios := fun _ => emptyRatios

lemma gainF_nonneg (c : ℕ → ℚ) (t : ℕ) : 0 ≤ gainF c t := by
  rw [gainF]; split_ifs with h1 h2
  · exact le_refl 0
  · exact le_of_lt h2
  · exact le_refl 0

lemma lossF_nonneg (c : ℕ → ℚ) (t : ℕ) : 0 ≤ lossF c t := by
  rw [lossF]; split_ifs with h1 h2
  · exact le_refl 0
  · linarith
  · exact le_refl 0

lemma wsum_nonneg (f : ℕ → ℚ) (w t : ℕ) (h : ∀ i, 0 ≤ f i) :
    0 ≤ wsum f w t := by
  apply List.sum_nonneg
  intro x hx
  simp only [List.mem_map] at hx
  obtain ⟨i, _, rfl⟩ := hx
  exact h _

lemma gAvg_nonneg (c : ℕ → ℚ) (t : ℕ) : 0 ≤ gAvg c t := by
  have := wsum_nonneg (gainF c) 14 t (gainF_nonneg c)
  unfold gAvg
  positivity

lemma rsiPF_of_pos (c : ℕ → ℚ) (t : ℕ) (h13 : 13 ≤ t) (hl : 0 < lAvg c t) :
    rsiPF c t = .num (100 - 100 / (1 + gAvg c t / lAvg c t)) := by
  have hnl : ¬ t < 13 := by omega
  have hl0 : lAvg c t ≠ 0 := ne_of_gt hl
  have hx : 0 ≤ gAvg c t / lAvg c t := div_nonneg (gAvg_nonneg c t) hl.le
  have hpos : (0 : ℚ) < 1 + gAvg c t / lAvg c t := by linarith
  simp [rsiPF, gAvgPF, lAvgPF, hnl, PF.divP, PF.addP, PF.subP, hl0, hpos.ne']

/-- C3 (amended): for every bar series, the RSI(14) value computed from a
14-bar trailing window is a finite value in [0, 100] whenever the average
loss over the window is strictly positive; and whenever the average loss
AND the average gain over the window both equal 0 (the 0/0 case, the only
one producing NaN), the neutralized RSI value fed to the model for that
row is exactly 0.0.  (When the average loss is 0 but the average gain is
positive, the source's IEEE evaluation yields RSI = 100, not a NaN, so
`fillna(0)` does not neutralize it — see the counterexample.) -/
theorem C3_rsi_range_and_neutralization (c : ℕ → ℚ) (t : ℕ) (h13 : 13 ≤ t) :
    (0 < lAvg c t → ∃ q, rsiPF c t = .num q ∧ 0 ≤ q ∧ q ≤ 100) ∧
    (lAvg c t = 0 → gAvg c t = 0 → fillna0 (rsiPF c t) = .num 0) := by
  constructor
  · intro hl
    refine ⟨100 - 100 / (1 + gAvg c t / lAvg c t), rsiPF_of_pos c t h13 hl, ?_, ?_⟩
    · have hx : 0 ≤ gAvg c t / lAvg c t := div_nonneg (gAvg_nonneg c t) hl.le
      have h1x : (1 : ℚ) ≤ 1 + gAvg c t / lAvg c t := by linarith
      have hd : (100 : ℚ) / (1 + gAvg c t / lAvg c t) ≤ 100 :=
        div_le_self (by norm_num) h1x
      linarith
    · have hx : 0 ≤ gAvg c t / lAvg c t := div_nonneg (gAvg_nonneg c t) hl.le
      have hpos : (0 : ℚ) < 1 + gAvg c t / lAvg c t := by linarith
      have hdpos : (0 : ℚ) < 100 / (1 + gAvg c t / lAvg c t) := by positivity
      linarith
  · intro hl hg
    have hnl : ¬ t < 13 := by omega
    simp [rsiPF, gAvgPF, lAvgPF, hnl, hl, hg, PF.divP, PF.addP, PF.subP, fillna0]

/-- C3 witness: on the alternating series the trailing average loss at row
13 is positive and the RSI is a finite value in [0, 100]; on the flat
series both trailing averages are 0 and the neutralized RSI is exactly 0. -/
theorem C3_witness :
    (∃ q, rsiPF exAlt 13 = .num q ∧ 0 ≤ q ∧ q ≤ 100) ∧
    fillna0 (rsiPF exFlat 13) = .num 0 := by
  constructor
  · apply (C3_rsi_range_and_neutralization exAlt 13 (by norm_num)).1
    simp [lAvg, wsum, exAlt, lossF, List.range_succ]
    norm_num
  · apply (C3_rsi_range_and_neutralization exFlat 13 (by norm_num)).2 <;>
      simp [lAvg, gAvg, wsum, exFlat, lossF, gainF, List.range_succ]

/-- C3 counterexample: on the strictly increasing series `close t = t`, at
row 13 the trailing average loss is 0 but the average gain is positive, so
the source computes `rs = +inf` and `RSI = 100 - 100/(1 + inf) = 100`, a
finite value that `fillna(0)` leaves at 100 — the value fed to the model
is 100.0, not the 0.0 the claim requires for every `avg_loss == 0` row. -/
theorem C3_counterexample :
    lAvg exC3 13 = 0 ∧ fillna0 (rsiPF exC3 13) = .num 100 ∧
    fillna0 (rsiPF exC3 13) ≠ .num 0 := by
  have hl : lAvg exC3 13 = 0 := by
    norm_num [lAvg, wsum, exC3, lossF, List.range_succ]
  have hg : gAvg exC3 13 = 13 / 14 := by
    norm_num [gAvg, wsum, exC3, gainF, List.range_succ]
  have hrsi : rsiPF exC3 13 = .num 100 := by
    rw [rsiPF, gAvgPF, lAvgPF]
    norm_num [hl, hg, PF.divP, PF.addP, PF.subP]
  refine ⟨hl, by rw [hrsi]; rfl, by rw [hrsi]; simp [fillna0]⟩

lemma foldl_headline (rs : List (String × ℚ)) (a : ℚ) :
    List.foldl (fun acc r => acc + headlineScore r.1 r.2) a rs =
      a + (rs.map (fun r => headlineScore r.1 r.2)).sum := by
  induction rs generalizing a with
  | nil => simp
  | cons x xs ih => simp [List.foldl, ih]; ring

/-- C6: the aggregate signed score over a batch of classified headlines is
the sum of +confidence for positive, -confidence for negative and 0 for
neutral labels (unnormalized by count); the overall label is Positive
exactly when the aggregate exceeds 0.1, Negative exactly when it is below
-0.1, Neutral otherwise; and the spec's example batch aggregates to 0 and
is labeled Neutral. -/
theorem C6_sentiment_aggregation :
    (∀ rs : List (String × ℚ),
        aggregateScore rs = (rs.map (fun r => headlineScore r.1 r.2)).sum) ∧
    (∀ s : ℚ,
        ((overallLabel s = "Positive") ↔ 1/10 < s) ∧
        ((overallLabel s = "Negative") ↔ s < -(1/10)) ∧
        ((overallLabel s = "Neutral") ↔ (-(1/10) ≤ s ∧ s ≤ 1/10))) ∧
    aggregateScore exBatch = 0 ∧
    overallLabel (aggregateScore exBatch) = "Neutral" := by
  have hagg : aggregateScore exBatch = 0 := by
    simp [aggregateScore, exBatch, headlineScore, List.foldl]
  refine ⟨fun rs => by simpa using foldl_headline rs 0, fun s => ?_, hagg, ?_⟩
  · unfold overallLabel
    split_ifs with h1 h2
    · refine ⟨⟨fun _ => h1, fun _ => rfl⟩, ⟨?_, ?_⟩, ⟨?_, ?_⟩⟩
      · intro hc; exact absurd hc (by decide)
      · intro hs; exact absurd h1 (by linarith)
      · intro hc; exact absurd hc (by decide)
      · intro hs; exact absurd h1 (not_lt.mpr hs.2)
    · refine ⟨⟨?_, ?_⟩, ⟨fun _ => h2, fun _ => rfl⟩, ⟨?_, ?_⟩⟩
      · intro hc; exact absurd hc (by decide)
      · intro hs; exact absurd hs h1
      · intro hc; exact absurd hc (by decide)
      · intro hs; exact absurd hs.1 (not_le.mpr h2)
    · refine ⟨⟨?_, ?_⟩, ⟨?_, ?_⟩, ⟨fun _ => ⟨not_lt.mp h2, not_lt.mp h1⟩, fun _ => rfl⟩⟩
      · intro hc; exact absurd hc (by decide)
      · intro hs; exact absurd hs h1
      · intro hc; exact absurd hc (by decide)
      · intro hs; exact absurd hs h2
  · rw [hagg]; norm_num [overallLabel]

/-- C6 witness: the aggregation theorem instantiated at the spec's example
batch. -/
theorem C6_witness :
    aggregateScore exBatch = 0 ∧
    overallLabel (aggregateScore exBatch) = "Neutral" :=
  ⟨C6_sentiment_aggregation.2.2.1, C6_sentiment_aggregation.2.2.2⟩

lemma scoreOf_emptyRatios : scoreOf emptyRatios = 1 := by
  norm_num [scoreOf, emptyRatios]

lemma scanRecords_nil_of_low (g : String → Ratios) (cs : List String)
    (h : ∀ s ∈ cs, ¬ 3 ≤ scoreOf (g s)) : scanRecords g cs = [] := by
  induction cs with
  | nil => rfl
  | cons s ss ih =>
      rw [scanRecords, if_neg (h s (by simp))]
      exact ih (fun x hx => h x (by simp [hx]))

/-- C7: for every candidate universe in which every candidate's ratios are
entirely defaulted to 0.0, the undervalued scanner's result list is empty:
an all-zero record scores only 1 (it fails the `pe > 0` and `pb > 0`
checks and the `roe > 15` check, passing only `debt_to_equity < 1`), never
reaching 3, and the scan simply returns the empty list rather than
erroring (the scanner is a total function). -/
theorem C7_zero_default_universe (g : String → Ratios) (cs : List String)
    (limit : ℕ) (h : ∀ s ∈ cs, g s = emptyRatios) :
    findUndervalued g cs limit = [] ∧ scoreOf emptyRatios < 3 := by
  have hscan : scanRecords g cs = [] := by
    apply scanRecords_nil_of_low
    intro s hs
    rw [h s hs, scoreOf_emptyRatios]
    omega
  constructor
  · rw [findUndervalued, hscan]; simp [sortByScoreDesc]
  · rw [scoreOf_emptyRatios]; omega

/-- C7 witness: a concrete two-symbol universe with all-defaulted ratios
scans to the empty result list. -/
theorem C7_witness :
    findUndervalued exG exCs 5 = [] ∧ scoreOf emptyRatios < 3 :=
  C7_zero_default_universe exG exCs 5 (fun _ _ => rfl)

/-- C8: if the fetched bar series is empty, training fails with the
DataUnavailable condition (`ValueError("No data fetched.")`, raised before
any artifact write and caught by `build_model`'s try/except) and writes
nothing; in every run the set of artifact files written is either empty or
all three of model, scaler and metadata (the dumps sit together after all
fallible steps). -/
theorem C8_empty_series_no_partial_writes (n : ℕ) (c v : ℕ → ℚ) :
    (n = 0 → buildModel n c v = (.error "No data fetched.", [])) ∧
    ((buildModel n c v).2 = [] ∨ (buildModel n c v).2 = artifactFiles) := by
  constructor
  · rintro rfl
    rfl
  · by_cases hn : n = 0 <;> simp [buildModel, prepareData, hn]

/-- C8 witness: the empty fetch at `n = 0` yields the DataUnavailable
error and an empty write list. -/
theorem C8_witness :
    buildModel 0 exC1 exV1 = (.error "No data fetched.", []) :=
  (C8_empty_series_no_partial_writes 0 exC1 exV1).1 rfl

/-- C9: for every non-empty bar series with at most 20 bars, `predict`
substitutes the last close for the undefined trailing 20-bar SMA, so the
strict comparison `last_close > sma20` is false and the baseline
prediction is DOWN (and, the series having at most 60 bars, the custom
model reports its sentinel). -/
theorem C9_short_series_baseline_down (n : ℕ) (c v : ℕ → ℚ) (ml : Bool)
    (sT : List PF → Except Unit (List PF))
    (pb : List PF → Except Unit (ℚ × ℚ))
    (h0 : 0 < n) (h20 : n ≤ 20) :
    predictAPI n c v ml sT pb =
      .ok ⟨"DOWN", c (n - 1), c (n - 1), "Insufficient Data", 0⟩ := by
  have hn : ¬ n = 0 := by omega
  have ha : ¬ 20 < n := by omega
  have hb : ¬ 60 < n := by omega
  simp [predictAPI, sma20last, hn, ha, hb, lt_irrefl]

/-- C9 witness: a concrete 5-bar constant series predicts DOWN with the
SMA-20 field equal to the last close. -/
theorem C9_witness :
    predictAPI 5 exFlat exV1 true exS exP =
      .ok ⟨"DOWN", 5, 5, "Insufficient Data", 0⟩ := by
  have h := C9_short_series_baseline_down 5 exFlat exV1 true exS exP
    (by norm_num) (by norm_num)
  simpa [exFlat] using h

lemma mem_prepareTable {n : ℕ} {c v : ℕ → ℚ} {r : TrainRow} :
    r ∈ prepareTable n c v ↔
      r.idx < n ∧ rowOk c v r.idx = true ∧
      r = ⟨r.idx, featuresRow c v r.idx, targetOf n c r.idx⟩ := by
  unfold prepareTable
  simp only [List.mem_map, List.mem_filter, List.mem_range]
  constructor
  · rintro ⟨t, ⟨ht, hok⟩, rfl⟩
    exact ⟨ht, hok, rfl⟩
  · rintro ⟨ht, hok, hr⟩
    exact ⟨r.idx, ⟨ht, hok⟩, hr.symm⟩

/-- C1 (amended): in the training table, the label of a bar is 1 if the
next bar's close is strictly greater than the current bar's close and 0
otherwise, where for the final bar of the series (which has no successor)
the pandas comparison against the shifted-in NaN is false, so the final
bar receives label 0 — and it is RETAINED in the feature/label table
whenever its rolling-window features are defined, not dropped (`dropna`
only removes rows whose feature cells are NaN, and the integer `Target`
column is never NaN). -/
theorem C1_label_semantics (n : ℕ) (c v : ℕ → ℚ) :
    (∀ r ∈ prepareTable n c v,
        r.label = if r.idx + 1 < n ∧ c r.idx < c (r.idx + 1) then 1 else 0) ∧
    (∀ r ∈ prepareTable n c v, r.idx + 1 = n → r.label = 0) ∧
    (∀ t, t < n → rowOk c v t = true →
        (⟨t, featuresRow c v t, targetOf n c t⟩ : TrainRow) ∈ prepareTable n c v) := by
  refine ⟨?_, ?_, ?_⟩
  · intro r hr
    have h := (mem_prepareTable.mp hr).2.2
    have := congrArg TrainRow.label h
    simpa [targetOf] using this
  · intro r hr hlast
    have h := (mem_prepareTable.mp hr).2.2
    have hl := congrArg TrainRow.label h
    rw [hl]
    show targetOf n c r.idx = 0
    rw [targetOf, if_neg]
    rintro ⟨hcontra, _⟩
    omega
  · intro t ht hok
    exact mem_prepareTable.mpr ⟨ht, hok, rfl⟩

lemma rowOk_exC1_49 : rowOk exC1 exV1 49 = true := by
  have h20 : wsum exC1 20 49 = 810 := by
    norm_num [wsum, exC1, List.range_succ]
  have h50 : wsum exC1 50 49 = 1275 := by
    norm_num [wsum, exC1, List.range_succ]
  have hg : gAvg exC1 49 = 1 := by
    norm_num [gAvg, wsum, exC1, gainF, List.range_succ]
  have hl : lAvg exC1 49 = 0 := by
    norm_num [lAvg, wsum, exC1, lossF, List.range_succ]
  norm_num [rowOk, featuresRow, returnsPF, distSmaPF, smaPF, rsiPF, volChPF,
    gAvgPF, lAvgPF, hg, hl, h20, h50, exC1, exV1, PF.divP, PF.addP, PF.subP,
    PF.isNan, List.all]

/-- C1 witness: on the 50-bar strictly increasing series the final bar
(index 49) is a member of the training table and its label is 0. -/
theorem C1_witness :
    (⟨49, featuresRow exC1 exV1 49, targetOf 50 exC1 49⟩ : TrainRow) ∈
      prepareTable 50 exC1 exV1 ∧
    targetOf 50 exC1 49 = 0 := by
  have h3 := (C1_label_semantics 50 exC1 exV1).2.2 49 (by norm_num) rowOk_exC1_49
  have h2 := (C1_label_semantics 50 exC1 exV1).2.1 _ h3 (by norm_num)
  exact ⟨h3, h2⟩

/-- C1 counterexample: the claim says the final bar of every training
series is dropped from the feature/label table; but on the concrete
50-bar series with close `t + 1` and volume 1 the final bar (index 49,
all five features defined) appears in the table, carrying label 0 — pandas
evaluates `NaN > close` as False, so `Target` is 0, not NaN, and `dropna`
keeps the row. -/
theorem C1_counterexample :
    (⟨49, featuresRow exC1 exV1 49, 0⟩ : TrainRow) ∈ prepareTable 50 exC1 exV1 := by
  have ht : targetOf 50 exC1 49 = 0 := by norm_num [targetOf]
  have hmem : (⟨49, featuresRow exC1 exV1 49, targetOf 50 exC1 49⟩ : TrainRow) ∈
      prepareTable 50 exC1 exV1 := by
    apply mem_prepareTable.mpr
    exact ⟨by norm_num, rowOk_exC1_49, rfl⟩
  rwa [ht] at hmem

/-- C2 (amended): with model and scaler loaded, for every non-empty bar
series of strictly more than 60 bars whose scaling and probability steps
succeed, `predict` computes the latest feature row, scales it, and emits
the model UP/DOWN call with its confidence (`prob[1] > 0.5` means UP with
confidence `prob[1]`, else DOWN with confidence `prob[0]`); for every
non-empty series of at most 60 bars — including exactly 60, where the
spec's "at least 60" boundary is off by one against the source's strict
`len(df) > 60` test — it returns the sentinel
`("Insufficient Data", 0.0)` inside a normal (non-error) response. -/
theorem C2_model_call_threshold (n : ℕ) (c v : ℕ → ℚ)
    (sT : List PF → Except Unit (List PF))
    (pb : List PF → Except Unit (ℚ × ℚ)) :
    (∀ fs p0 p1, 60 < n →
        sT ((featuresRow c v (n - 1)).map fillna0) = .ok fs →
        pb fs = .ok (p0, p1) →
        predictAPI n c v true sT pb =
          .ok ⟨if sma20last n c < c (n - 1) then "UP" else "DOWN", c (n - 1),
               sma20last n c,
               if 1/2 < p1 then "UP" else "DOWN",
               if 1/2 < p1 then p1 else p0⟩) ∧
    (0 < n → n ≤ 60 →
        predictAPI n c v true sT pb =
          .ok ⟨if sma20last n c < c (n - 1) then "UP" else "DOWN", c (n - 1),
               sma20last n c, "Insufficient Data", 0⟩) := by
  constructor
  · intro fs p0 p1 h60 hS hP
    have hn : ¬ n = 0 := by omega
    simp [predictAPI, customStep, calcFeaturesOpt, hn, h60, hS, hP,
      Bind.bind, Except.bind]
  · intro h0 h60
    have hn : ¬ n = 0 := by omega
    have hb : ¬ 60 < n := by omega
    simp [predictAPI, hn, hb]

/-- C2 witness: a 61-bar increasing series with a succeeding scaler and a
3/4 class-1 probability yields the model call UP with confidence 3/4; a
15-bar series yields the sentinel in a normal response. -/
theorem C2_witness :
    predictAPI 61 exC1 exV1 true exS exP =
      .ok ⟨"UP", 61, 103/2, "UP", 3/4⟩ ∧
    predictAPI 15 exC1 exV1 true exS exP =
      .ok ⟨"DOWN", 15, 15, "Insufficient Data", 0⟩ := by
  constructor
  · have h := (C2_model_call_threshold 61 exC1 exV1 exS exP).1
      ((featuresRow exC1 exV1 60).map fillna0) (1/4) (3/4)
      (by norm_num) rfl rfl
    have h20 : wsum exC1 20 60 = 1030 := by
      norm_num [wsum, exC1, List.range_succ]
    rw [h]
    norm_num [sma20last, exC1, h20]
  · have h := (C2_model_call_threshold 15 exC1 exV1 exS exP).2
      (by norm_num) (by norm_num)
    rw [h]
    norm_num [sma20last, exC1]

/-- C2 counterexample: the claim promises a model UP/DOWN call for every
series of at least 60 bars, but the source's test is strictly
`len(df) > 60`: on a concrete 60-bar series, with artifacts loaded and
both external steps able to succeed, `predict` still returns the
sentinel `("Insufficient Data", 0.0)`, not a model call. -/
theorem C2_counterexample :
    predictAPI 60 exC1 exV1 true exS exP =
      .ok ⟨"UP", 60, 101/2, "Insufficient Data", 0⟩ ∧
    ("Insufficient Data" : String) ≠ "UP" ∧
    ("Insufficient Data" : String) ≠ "DOWN" := by
  refine ⟨?_, by decide, by decide⟩
  have h20 : wsum exC1 20 59 = 1010 := by
    norm_num [wsum, exC1, List.range_succ]
  norm_num [predictAPI, sma20last, exC1, exV1, h20]

/-- C10: for every bar series of more than 60 bars with the model
artifacts loaded, if the custom-model block raises at any of its fallible
steps (scaling or probability evaluation; the feature computation's own
try/except cannot fire on a well-formed frame), `predict` still returns a
normal result whose custom-model fields remain the sentinel
`("Insufficient Data", 0.0)` and whose baseline prediction, current price
and SMA-20 fields are the same values computed before the block. -/
theorem C10_exception_keeps_sentinel (n : ℕ) (c v : ℕ → ℚ)
    (sT : List PF → Except Unit (List PF))
    (pb : List PF → Except Unit (ℚ × ℚ))
    (h60 : 60 < n) (herr : customStep n c v sT pb = .error ()) :
    predictAPI n c v true sT pb =
      .ok ⟨if sma20last n c < c (n - 1) then "UP" else "DOWN", c (n - 1),
           sma20last n c, "Insufficient Data", 0⟩ := by
  have hn : ¬ n = 0 := by omega
  simp [predictAPI, hn, h60, herr]

/-- C10 witness: on a 61-bar series with a raising scaler transform the
endpoint still answers normally, baseline UP, sentinel custom fields. -/
theorem C10_witness :
    predictAPI 61 exC1 exV1 true exSbad exP =
      .ok ⟨"UP", 61, 103/2, "Insufficient Data", 0⟩ := by
  have h := C10_exception_keeps_sentinel 61 exC1 exV1 exSbad exP
    (by norm_num) rfl
  rw [h]
  have h20 : wsum exC1 20 60 = 1030 := by
    norm_num [wsum, exC1, List.range_succ]
  norm_num [sma20last, exC1, h20]

/-- C4 (amended): the ratio normalizer is total — for every raw
fundamental field mapping (including the missing-payload case, the empty
mapping, and mappings with absent or null keys) it returns a record with
all 16 named ratio keys populated, absent, null and zero raw values all
normalizing to 0.0, and being a total function it raises no exception;
the record carries 16 keys (the spec's count of 15 is one short of its
own key list). -/
theorem C4_normalizer_total :
    (∀ data : Option RawMap, (ratiosToList (calculateRatios data)).length = 16) ∧
    (∀ info : RawMap, ∀ k : String,
        (rawLookup info k = none ∨ rawLookup info k = some none ∨
          rawLookup info k = some (some 0)) →
        getVal info k = 0) ∧
    calculateRatios none = emptyRatios ∧
    calculateRatios (some []) = emptyRatios ∧
    mkRatios [] = emptyRatios := by
  have hmk : mkRatios [] = emptyRatios := by
    simp [mkRatios, emptyRatios, getVal, rawLookup]
  refine ⟨fun data => rfl, ?_, rfl, rfl, hmk⟩
  intro info k h
  rcases h with h | h | h <;> simp [getVal, h]

/-- C4 witness: a one-key mapping yields a 16-entry record; a null value
and an absent key both normalize to 0. -/
theorem C4_witness :
    (ratiosToList (calculateRatios (some [("trailingPE", some 12)]))).length = 16 ∧
    getVal [("returnOnEquity", none)] "returnOnEquity" = 0 ∧
    getVal [] "trailingPE" = 0 := by
  have h1 : rawLookup [(("returnOnEquity" : String), (none : Option ℚ))]
      "returnOnEquity" = some none := by
    simp [rawLookup]
  have h2 : rawLookup ([] : RawMap) "trailingPE" = none := by
    simp [rawLookup]
  exact ⟨C4_normalizer_total.1 _,
    C4_normalizer_total.2.1 _ _ (Or.inr (Or.inl h1)),
    C4_normalizer_total.2.1 _ _ (Or.inl h2)⟩

/-- C4 counterexample: the claim says the record carries 15 named ratio
keys, but the source's key set (`_empty_ratios`, equally the
`Ratios(...)` constructor call) has 16 entries. -/
theorem C4_counterexample :
    ratioKeys.length ≠ 15 ∧ ratioKeys.length = 16 := by
  constructor <;> decide

lemma scoreOf_le_four (r : Ratios) : scoreOf r ≤ 4 := by
  rw [scoreOf]; split_ifs <;> omega

lemma scoreOf_eq_specScore (r : Ratios) : scoreOf r = specScore r := by
  rw [scoreOf, specScore]
  by_cases h1 : 0 < r.pe ∧ r.pe < 25 <;>
    by_cases h2 : 0 < r.pb ∧ r.pb < 5 <;>
      by_cases h3 : 15 < r.roe <;>
        by_cases h4 : r.debt_to_equity < 1 <;>
          simp [h1, h2, h3, h4]

lemma scanRecords_eq_filter (g : String → Ratios) (cs : List String) :
    scanRecords g cs =
      (cs.map (fun s => (⟨s, scoreOf (g s), (g s).pe, (g s).roe⟩ : SRec))).filter
        (fun r => 3 ≤ r.score) := by
  induction cs with
  | nil => rfl
  | cons s ss ih =>
      rw [scanRecords, List.map_cons, List.filter_cons]
      by_cases h : 3 ≤ scoreOf (g s) <;> simp [h, ih]

lemma insertDesc_front {x : SRec} {l : List SRec}
    (h : ∀ y ∈ l, y.score ≤ x.score) : insertDesc x l = x :: l := by
  cases l with
  | nil => rfl
  | cons y ys =>
      rw [insertDesc, if_neg]
      exact not_lt.mpr (h y (by simp))

lemma insertDesc_middle {x : SRec} {l1 l2 : List SRec}
    (h1 : ∀ y ∈ l1, x.score < y.score) (h2 : ∀ y ∈ l2, y.score ≤ x.score) :
    insertDesc x (l1 ++ l2) = l1 ++ x :: l2 := by
  induction l1 with
  | nil => simpa using insertDesc_front h2
  | cons y ys ih =>
      rw [List.cons_append, insertDesc, if_pos (h1 y (by simp)),
        ih (fun z hz => h1 z (by simp [hz]))]
      rfl

lemma sortByScoreDesc_34 (l : List SRec)
    (h : ∀ r ∈ l, r.score = 3 ∨ r.score = 4) :
    sortByScoreDesc l =
      l.filter (fun r => r.score = 4) ++ l.filter (fun r => r.score = 3) := by
  induction l with
  | nil => rfl
  | cons x xs ih =>
      have hx := h x (by simp)
      have hxs : ∀ r ∈ xs, r.score = 3 ∨ r.score = 4 :=
        fun r hr => h r (by simp [hr])
      rw [sortByScoreDesc, ih hxs]
      rcases hx with h3 | h4
      · have hfour : ∀ y ∈ xs.filter (fun r => r.score = 4), x.score < y.score := by
          intro y hy
          have hy4 : y.score = 4 := by simpa using (List.mem_filter.mp hy).2
          omega
        have hthree : ∀ y ∈ xs.filter (fun r => r.score = 3), y.score ≤ x.score := by
          intro y hy
          have hy3 : y.score = 3 := by simpa using (List.mem_filter.mp hy).2
          omega
        rw [insertDesc_middle hfour hthree]
        simp [List.filter_cons, h3]
      · have hall : ∀ y ∈ xs.filter (fun r => r.score = 4) ++
            xs.filter (fun r => r.score = 3), y.score ≤ x.score := by
          intro y hy
          rcases List.mem_append.mp hy with hy' | hy'
          · have hy4 : y.score = 4 := by simpa using (List.mem_filter.mp hy').2
            omega
          · have hy3 : y.score = 3 := by simpa using (List.mem_filter.mp hy').2
            omega
        rw [insertDesc_front hall]
        simp [List.filter_cons, h4]

/-- C5: for every candidate universe in its given order and every result
limit, the undervalued scanner equals its specification: each candidate
is assigned a score equal to the count of satisfied criteria among
`0 < pe < 25`, `0 < pb < 5`, `roe > 15`, `debt_to_equity < 1.0`; exactly
the candidates with score at least 3 are kept; the kept candidates are
ordered by score descending with ties left in original scan order (kept
scores can only be 3 or 4, so that order is the score-4 records in scan
order followed by the score-3 records in scan order); and the result is
truncated to the first `limit` entries. -/
theorem C5_scanner_refinement (g : String → Ratios) (cs : List String)
    (limit : ℕ) :
    findUndervalued g cs limit = specFindUndervalued g cs limit ∧
    (∀ r : Ratios, scoreOf r = specScore r) := by
  refine ⟨?_, scoreOf_eq_specScore⟩
  have hmap : (cs.map (fun s => (⟨s, specScore (g s), (g s).pe, (g s).roe⟩ : SRec))) =
      (cs.map (fun s => (⟨s, scoreOf (g s), (g s).pe, (g s).roe⟩ : SRec))) := by
    simp [scoreOf_eq_specScore]
  have hscores : ∀ r ∈ (cs.map
        (fun s => (⟨s, scoreOf (g s), (g s).pe, (g s).roe⟩ : SRec))).filter
        (fun r => 3 ≤ r.score), r.score = 3 ∨ r.score = 4 := by
    intro r hr
    obtain ⟨hrm, hrs⟩ := List.mem_filter.mp hr
    obtain ⟨s, hs, rfl⟩ := List.mem_map.mp hrm
    have h4 := scoreOf_le_four (g s)
    simp at hrs ⊢
    omega
  simp only [findUndervalued, specFindUndervalued, scanRecords_eq_filter, hmap]
  rw [sortByScoreDesc_34 _ hscores]

/-- C5 witness: the refinement equation instantiated at a concrete
universe and limit. -/
theorem C5_witness :
    findUndervalued exG exCs 5 = specFindUndervalued exG exCs 5 :=
  (C5_scanner_refinement exG exCs 5).1
